import Mathlib

/-!
# sentiric-registrator: the registration pipeline of `main.go`

A shallow embedding of `processContainer`, `deregisterContainer`, the bootstrap
scan and the event handler of `main.go`, together with the library functions
they call (`strings.SplitN`, `strings.Trim`, `strings.TrimPrefix`,
`strings.ToLower`, `strconv.Atoi`, `fmt.Sprintf`, `nat.Port.Proto`).

Modelling conventions.

* Go strings are Lean `String`s. Byte-indexed operations (`cj.ID[:12]`) are
  bounds-checked on the UTF-8 byte length.
* `strings.ToLower` is `unicode.ToLower` on every rune, with the simple lower-case mapping
  of Unicode 15.0.0 (the tables of Go 1.21 and later) written out in `lowerCaseRanges`.
* `int` is the 64-bit Go `int`, held in an `Int`; `strconv.Atoi` clamps at the
  64-bit bounds exactly as the library does.
* The Go map `cj.NetworkSettings.Ports` is the list of its entries in the order
  in which the `range` loop of the run at hand visits them. Go leaves that order
  unspecified and changes it from one loop to the next, so two runs over one and
  the same map see two lists that are permutations of each other.
* The registry client is a state-passing collaborator `Agent σ`; the calls made
  on it are also recorded, in order, in `World.submitted`.
* A run-time panic (slice bounds out of range) is the result `none`.
* Each event handler is run to completion on its own; the one-second wait before a
  start event is processed and the interleaving of goroutines are not modelled.
-/

namespace Registrator

/-! ## Data model -/

/-- Config (main.go 23-27). -/
structure Config where
  NodeIP : String
  ConsulURL : String
  HostName : String
  deriving DecidableEq, Repr

/-- The type nat.PortBinding of the Docker API. -/
structure PortBinding where
  HostIP : String
  HostPort : String
  deriving DecidableEq, Repr

/-- The type nat.Port: a string such as "80/tcp". -/
abbrev Port := String

/-- The type nat.PortMap, as the list of entries in the order the range loop visits them. -/
abbrev PortMap := List (Port × List PortBinding)

/-- The fields of types.ContainerJSON that processContainer reads:
cj.ID, cj.Name, cj.Config.Env, cj.Config.Image, cj.NetworkSettings.Ports.
The pointers cj.Config and cj.NetworkSettings are taken to be set, as they are in every
answer of the Docker daemon. -/
structure ContainerJSON where
  ID : String
  Name : String
  Env : List String
  Image : String
  Ports : PortMap
  deriving DecidableEq, Repr

/-- The fields of consul.AgentServiceCheck set at main.go 172-178. -/
structure AgentServiceCheck where
  Name : String
  TCP : String
  Interval : String
  Timeout : String
  DeregisterCriticalServiceAfter : String
  deriving DecidableEq, Repr

/-- The fields of consul.AgentServiceRegistration set at main.go 161-179. -/
structure AgentServiceRegistration where
  ID : String
  Name : String
  Port : Int
  Address : String
  Tags : List String
  Meta : List (String × String)
  Check : AgentServiceCheck
  deriving DecidableEq, Repr

/-! ## Library functions -/

/-- The cutset of cleanString (main.go 215): double quote, single quote, space. -/
def inCutset (c : Char) : Bool := c = '"' || c = '\'' || c = ' '

/-- strings.Trim(s, cutset): drop the leading and the trailing runes that are in the cutset. -/
def trimCutset (cs : List Char) : List Char :=
  ((cs.dropWhile inCutset).reverse.dropWhile inCutset).reverse

/-- cleanString (main.go 214-216). -/
def cleanString (s : String) : String := ⟨trimCutset s.data⟩

/-- The simple lower-case mapping of Unicode 15.0.0 outside ASCII, which is the table behind
unicode.ToLower in Go 1.21 and later. An entry (first, last, step, target) sends the runes
first, first + step, ..., last to target, target + step, ... in this order; a rune in no
entry is its own lower case. -/
def lowerCaseRanges : List (Nat × Nat × Nat × Nat) :=
  [(0x00C0, 0x00D6, 1, 0x00E0), (0x00D8, 0x00DE, 1, 0x00F8), (0x0100, 0x012E, 2, 0x0101),
   (0x0130, 0x0130, 1, 0x0069), (0x0132, 0x0136, 2, 0x0133), (0x0139, 0x0147, 2, 0x013A),
   (0x014A, 0x0176, 2, 0x014B), (0x0178, 0x0178, 1, 0x00FF), (0x0179, 0x017D, 2, 0x017A),
   (0x0181, 0x0181, 1, 0x0253), (0x0182, 0x0184, 2, 0x0183), (0x0186, 0x0186, 1, 0x0254),
   (0x0187, 0x0187, 1, 0x0188), (0x0189, 0x018A, 1, 0x0256), (0x018B, 0x018B, 1, 0x018C),
   (0x018E, 0x018E, 1, 0x01DD), (0x018F, 0x018F, 1, 0x0259), (0x0190, 0x0190, 1, 0x025B),
   (0x0191, 0x0191, 1, 0x0192), (0x0193, 0x0193, 1, 0x0260), (0x0194, 0x0194, 1, 0x0263),
   (0x0196, 0x0196, 1, 0x0269), (0x0197, 0x0197, 1, 0x0268), (0x0198, 0x0198, 1, 0x0199),
   (0x019C, 0x019C, 1, 0x026F), (0x019D, 0x019D, 1, 0x0272), (0x019F, 0x019F, 1, 0x0275),
   (0x01A0, 0x01A4, 2, 0x01A1), (0x01A6, 0x01A6, 1, 0x0280), (0x01A7, 0x01A7, 1, 0x01A8),
   (0x01A9, 0x01A9, 1, 0x0283), (0x01AC, 0x01AC, 1, 0x01AD), (0x01AE, 0x01AE, 1, 0x0288),
   (0x01AF, 0x01AF, 1, 0x01B0), (0x01B1, 0x01B2, 1, 0x028A), (0x01B3, 0x01B5, 2, 0x01B4),
   (0x01B7, 0x01B7, 1, 0x0292), (0x01B8, 0x01B8, 1, 0x01B9), (0x01BC, 0x01BC, 1, 0x01BD),
   (0x01C4, 0x01C4, 1, 0x01C6), (0x01C5, 0x01C5, 1, 0x01C6), (0x01C7, 0x01C7, 1, 0x01C9),
   (0x01C8, 0x01C8, 1, 0x01C9), (0x01CA, 0x01CA, 1, 0x01CC), (0x01CB, 0x01DB, 2, 0x01CC),
   (0x01DE, 0x01EE, 2, 0x01DF), (0x01F1, 0x01F1, 1, 0x01F3), (0x01F2, 0x01F4, 2, 0x01F3),
   (0x01F6, 0x01F6, 1, 0x0195), (0x01F7, 0x01F7, 1, 0x01BF), (0x01F8, 0x021E, 2, 0x01F9),
   (0x0220, 0x0220, 1, 0x019E), (0x0222, 0x0232, 2, 0x0223), (0x023A, 0x023A, 1, 0x2C65),
   (0x023B, 0x023B, 1, 0x023C), (0x023D, 0x023D, 1, 0x019A), (0x023E, 0x023E, 1, 0x2C66),
   (0x0241, 0x0241, 1, 0x0242), (0x0243, 0x0243, 1, 0x0180), (0x0244, 0x0244, 1, 0x0289),
   (0x0245, 0x0245, 1, 0x028C), (0x0246, 0x024E, 2, 0x0247), (0x0370, 0x0372, 2, 0x0371),
   (0x0376, 0x0376, 1, 0x0377), (0x037F, 0x037F, 1, 0x03F3), (0x0386, 0x0386, 1, 0x03AC),
   (0x0388, 0x038A, 1, 0x03AD), (0x038C, 0x038C, 1, 0x03CC), (0x038E, 0x038F, 1, 0x03CD),
   (0x0391, 0x03A1, 1, 0x03B1), (0x03A3, 0x03AB, 1, 0x03C3), (0x03CF, 0x03CF, 1, 0x03D7),
   (0x03D8, 0x03EE, 2, 0x03D9), (0x03F4, 0x03F4, 1, 0x03B8), (0x03F7, 0x03F7, 1, 0x03F8),
   (0x03F9, 0x03F9, 1, 0x03F2), (0x03FA, 0x03FA, 1, 0x03FB), (0x03FD, 0x03FF, 1, 0x037B),
   (0x0400, 0x040F, 1, 0x0450), (0x0410, 0x042F, 1, 0x0430), (0x0460, 0x0480, 2, 0x0461),
   (0x048A, 0x04BE, 2, 0x048B), (0x04C0, 0x04C0, 1, 0x04CF), (0x04C1, 0x04CD, 2, 0x04C2),
   (0x04D0, 0x052E, 2, 0x04D1), (0x0531, 0x0556, 1, 0x0561), (0x10A0, 0x10C5, 1, 0x2D00),
   (0x10C7, 0x10C7, 1, 0x2D27), (0x10CD, 0x10CD, 1, 0x2D2D), (0x13A0, 0x13EF, 1, 0xAB70),
   (0x13F0, 0x13F5, 1, 0x13F8), (0x1C90, 0x1CBA, 1, 0x10D0), (0x1CBD, 0x1CBF, 1, 0x10FD),
   (0x1E00, 0x1E94, 2, 0x1E01), (0x1E9E, 0x1E9E, 1, 0x00DF), (0x1EA0, 0x1EFE, 2, 0x1EA1),
   (0x1F08, 0x1F0F, 1, 0x1F00), (0x1F18, 0x1F1D, 1, 0x1F10), (0x1F28, 0x1F2F, 1, 0x1F20),
   (0x1F38, 0x1F3F, 1, 0x1F30), (0x1F48, 0x1F4D, 1, 0x1F40), (0x1F59, 0x1F5F, 2, 0x1F51),
   (0x1F68, 0x1F6F, 1, 0x1F60), (0x1F88, 0x1F8F, 1, 0x1F80), (0x1F98, 0x1F9F, 1, 0x1F90),
   (0x1FA8, 0x1FAF, 1, 0x1FA0), (0x1FB8, 0x1FB9, 1, 0x1FB0), (0x1FBA, 0x1FBB, 1, 0x1F70),
   (0x1FBC, 0x1FBC, 1, 0x1FB3), (0x1FC8, 0x1FCB, 1, 0x1F72), (0x1FCC, 0x1FCC, 1, 0x1FC3),
   (0x1FD8, 0x1FD9, 1, 0x1FD0), (0x1FDA, 0x1FDB, 1, 0x1F76), (0x1FE8, 0x1FE9, 1, 0x1FE0),
   (0x1FEA, 0x1FEB, 1, 0x1F7A), (0x1FEC, 0x1FEC, 1, 0x1FE5), (0x1FF8, 0x1FF9, 1, 0x1F78),
   (0x1FFA, 0x1FFB, 1, 0x1F7C), (0x1FFC, 0x1FFC, 1, 0x1FF3), (0x2126, 0x2126, 1, 0x03C9),
   (0x212A, 0x212A, 1, 0x006B), (0x212B, 0x212B, 1, 0x00E5), (0x2132, 0x2132, 1, 0x214E),
   (0x2160, 0x216F, 1, 0x2170), (0x2183, 0x2183, 1, 0x2184), (0x24B6, 0x24CF, 1, 0x24D0),
   (0x2C00, 0x2C2F, 1, 0x2C30), (0x2C60, 0x2C60, 1, 0x2C61), (0x2C62, 0x2C62, 1, 0x026B),
   (0x2C63, 0x2C63, 1, 0x1D7D), (0x2C64, 0x2C64, 1, 0x027D), (0x2C67, 0x2C6B, 2, 0x2C68),
   (0x2C6D, 0x2C6D, 1, 0x0251), (0x2C6E, 0x2C6E, 1, 0x0271), (0x2C6F, 0x2C6F, 1, 0x0250),
   (0x2C70, 0x2C70, 1, 0x0252), (0x2C72, 0x2C72, 1, 0x2C73), (0x2C75, 0x2C75, 1, 0x2C76),
   (0x2C7E, 0x2C7F, 1, 0x023F), (0x2C80, 0x2CE2, 2, 0x2C81), (0x2CEB, 0x2CED, 2, 0x2CEC),
   (0x2CF2, 0x2CF2, 1, 0x2CF3), (0xA640, 0xA66C, 2, 0xA641), (0xA680, 0xA69A, 2, 0xA681),
   (0xA722, 0xA72E, 2, 0xA723), (0xA732, 0xA76E, 2, 0xA733), (0xA779, 0xA77B, 2, 0xA77A),
   (0xA77D, 0xA77D, 1, 0x1D79), (0xA77E, 0xA786, 2, 0xA77F), (0xA78B, 0xA78B, 1, 0xA78C),
   (0xA78D, 0xA78D, 1, 0x0265), (0xA790, 0xA792, 2, 0xA791), (0xA796, 0xA7A8, 2, 0xA797),
   (0xA7AA, 0xA7AA, 1, 0x0266), (0xA7AB, 0xA7AB, 1, 0x025C), (0xA7AC, 0xA7AC, 1, 0x0261),
   (0xA7AD, 0xA7AD, 1, 0x026C), (0xA7AE, 0xA7AE, 1, 0x026A), (0xA7B0, 0xA7B0, 1, 0x029E),
   (0xA7B1, 0xA7B1, 1, 0x0287), (0xA7B2, 0xA7B2, 1, 0x029D), (0xA7B3, 0xA7B3, 1, 0xAB53),
   (0xA7B4, 0xA7C2, 2, 0xA7B5), (0xA7C4, 0xA7C4, 1, 0xA794), (0xA7C5, 0xA7C5, 1, 0x0282),
   (0xA7C6, 0xA7C6, 1, 0x1D8E), (0xA7C7, 0xA7C9, 2, 0xA7C8), (0xA7D0, 0xA7D0, 1, 0xA7D1),
   (0xA7D6, 0xA7D8, 2, 0xA7D7), (0xA7F5, 0xA7F5, 1, 0xA7F6), (0xFF21, 0xFF3A, 1, 0xFF41),
   (0x10400, 0x10427, 1, 0x10428), (0x104B0, 0x104D3, 1, 0x104D8), (0x10570, 0x1057A, 1, 0x10597),
   (0x1057C, 0x1058A, 1, 0x105A3), (0x1058C, 0x10592, 1, 0x105B3), (0x10594, 0x10595, 1, 0x105BB),
   (0x10C80, 0x10CB2, 1, 0x10CC0), (0x118A0, 0x118BF, 1, 0x118C0), (0x16E40, 0x16E5F, 1, 0x16E60),
   (0x1E900, 0x1E921, 1, 0x1E922)]

/-- The lower case of a code point according to a list of ranges. -/
def lookupLower : List (Nat × Nat × Nat × Nat) → Nat → Nat
  | [], n => n
  | (lo, hi, step, target) :: rest, n =>
    if lo ≤ n ∧ n ≤ hi ∧ (n - lo) % step = 0 then target + (n - lo)
    else lookupLower rest n

/-- unicode.ToLower: the letters A to Z go to a to z, every other ASCII rune is kept, and a
rune outside ASCII goes through the Unicode table. -/
def toLowerRune (c : Char) : Char :=
  if c.toNat < 128 then
    if 65 ≤ c.toNat ∧ c.toNat ≤ 90 then Char.ofNat (c.toNat + 32) else c
  else Char.ofNat (lookupLower lowerCaseRanges c.toNat)

/-- strings.ToLower on a string of valid UTF-8: unicode.ToLower on every rune. -/
def toLower (s : String) : String := ⟨s.data.map toLowerRune⟩

/-- sanitizeName (main.go 218-220). -/
def sanitizeName (s : String) : String := toLower s

/-- strings.TrimPrefix(s, p): s without the leading p when s starts with p, else s. -/
def TrimPrefix (s p : String) : String :=
  if p.data.isPrefixOf s.data then ⟨s.data.drop p.data.length⟩ else s

/-- strings.SplitN(e, "=", 2): the parts before and after the first "=",
or none when e has no "=" (SplitN then returns the single part e). -/
def splitEq : List Char → Option (List Char × List Char)
  | [] => none
  | c :: cs =>
    if c = '=' then some ([], cs)
    else match splitEq cs with
      | none => none
      | some (k, v) => some (c :: k, v)

/-- The key parts[0] of an environment entry, when the entry has an "=". -/
def entryKey (e : String) : Option String := (splitEq e.data).map fun kv => ⟨kv.1⟩

/-- The raw value parts[1] of an environment entry, when the entry has an "=". -/
def entryValue (e : String) : Option String := (splitEq e.data).map fun kv => ⟨kv.2⟩

/-- The map envMap of main.go 122; a missing key reads as "". -/
abbrev EnvMap := String → String

/-- One round of the loop at main.go 123-128. -/
def envStep (m : EnvMap) (e : String) : EnvMap :=
  match splitEq e.data with
  | some (k, v) => Function.update m ⟨k⟩ (cleanString ⟨v⟩)
  | none => m

/-- The loop at main.go 122-128. -/
def parseEnv (env : List String) : EnvMap :=
  env.foldl envStep (fun _ => "")

/-- The errors of package strconv. -/
inductive NumError where
  | ErrSyntax
  | ErrRange
  deriving DecidableEq, Repr

/-- The largest uint64. -/
def maxUint64 : Nat := 2 ^ 64 - 1

/-- The scanning loop of strconv.ParseUint(s, 10, 64): a byte that is not a decimal digit
is a syntax error with value 0; an overflow is a range error with value maxUint64, reported
at the digit where it happens. -/
def parseUintLoop : List Char → Nat → Nat × Option NumError
  | [], n => (n, none)
  | c :: cs, n =>
    if 48 ≤ c.toNat ∧ c.toNat ≤ 57 then
      if n ≥ maxUint64 / 10 + 1 then (maxUint64, some .ErrRange)
      else if n * 10 + (c.toNat - 48) > maxUint64 then (maxUint64, some .ErrRange)
      else parseUintLoop cs (n * 10 + (c.toNat - 48))
    else (0, some .ErrSyntax)

/-- strconv.ParseUint(s, 10, 64). -/
def ParseUint (cs : List Char) : Nat × Option NumError :=
  if cs = [] then (0, some .ErrSyntax) else parseUintLoop cs 0

/-- The part of strconv.ParseInt(s, 10, 0) after the sign has been read, on a 64-bit platform. -/
def parseIntSigned (neg : Bool) (cs : List Char) : Int × Option NumError :=
  match ParseUint cs with
  | (_, some .ErrSyntax) => (0, some .ErrSyntax)
  | (un, _) =>
    if !neg && un ≥ 2 ^ 63 then ((2 : Int) ^ 63 - 1, some .ErrRange)
    else if neg && un > 2 ^ 63 then (-(2 : Int) ^ 63, some .ErrRange)
    else (if neg then -(un : Int) else (un : Int), none)

/-- strconv.Atoi on a 64-bit platform (its fast path for short strings returns the same
values as ParseInt(s, 10, 0)). -/
def Atoi (s : String) : Int × Option NumError :=
  match s.data with
  | [] => (0, some .ErrSyntax)
  | c :: cs =>
    if c = '+' then parseIntSigned false cs
    else if c = '-' then parseIntSigned true cs
    else parseIntSigned false (c :: cs)

/-- The verb %d of fmt.Sprintf on an int. -/
def fmtInt (i : Int) : String := toString i

/-- The runes before the first "/" and the runes after it, when there is one. -/
def splitSlash : List Char → List Char × Option (List Char)
  | [] => ([], none)
  | c :: cs =>
    if c = '/' then ([], some cs)
    else ((c :: (splitSlash cs).1), (splitSlash cs).2)

/-- nat.Port.Proto() of docker/go-connections, that is the first result of
nat.SplitProtoPort: "" when the key is empty or starts with "/", "tcp" when there is no "/"
or nothing between the first "/" and the next, else the part between the first "/" and the
next. On the keys the daemon produces, port/proto, it is the part after the "/". -/
def Proto (p : Port) : String :=
  match splitSlash p.data with
  | ([], _) => ""
  | (_, none) => "tcp"
  | (_, some rest) =>
    match (splitSlash rest).1 with
    | [] => "tcp"
    | proto => ⟨proto⟩

/-- The longest prefix of whole runes within the first n bytes. -/
def bytePrefix : Nat → List Char → List Char
  | _, [] => []
  | n, c :: cs => if c.utf8Size ≤ n then c :: bytePrefix (n - c.utf8Size) cs else []

/-- The slice expression cj.ID[:12] (main.go 168): a panic (none) when the string has fewer
than 12 bytes, else its first 12 bytes. Container identifiers are hexadecimal, one byte a
rune; were byte 12 to fall inside a longer rune, the Go value would also hold the leading
bytes of that rune. -/
def slice12 (s : String) : Option String :=
  if s.utf8ByteSize < 12 then none else some ⟨bytePrefix 12 s.data⟩

/-! ## The registry collaborator and the observable effects -/

/-- The consul agent as seen by this program: ServiceRegister maps the registry state and a
registration to the state after the call and whether the call returned an error. -/
structure Agent (σ : Type) where
  ServiceRegister : σ → AgentServiceRegistration → σ × Bool

/-- The two log lines of main.go 184 and 186. -/
inductive LogLine where
  | kayitBasarisiz (serviceName : String)
  | kayitEdildi (serviceName serviceID nodeIP : String) (hostPort : Int)
  deriving DecidableEq, Repr

/-- What a run has done so far: the registry state, the registrations handed to
ServiceRegister (oldest first), and the log. -/
structure World (σ : Type) where
  registry : σ
  submitted : List AgentServiceRegistration
  log : List LogLine

/-! ## processContainer -/

/-- The test of main.go 131. -/
def isIgnored (cj : ContainerJSON) : Bool :=
  parseEnv cj.Env "SERVICE_IGNORE" = "true"

/-- The service name, main.go 137-142. -/
def serviceName (cj : ContainerJSON) : String :=
  let fromEnv := parseEnv cj.Env "SERVICE_NAME"
  sanitizeName
    (if fromEnv = "" then TrimPrefix (TrimPrefix cj.Name "/") "sentiric-" else fromEnv)

/-- The payload of main.go 158-179 for one port key, given the value of cj.ID[:12]. -/
def registration (cfg : Config) (cj : ContainerJSON) (name : String) (portKey : Port)
    (first : PortBinding) (cid : String) : AgentServiceRegistration :=
  let proto := Proto portKey
  let hostPort := (Atoi first.HostPort).1
  { ID := cfg.HostName ++ "-" ++ name ++ "-" ++ fmtInt hostPort
    Name := name
    Port := hostPort
    Address := cfg.NodeIP
    Tags := [proto, "sentiric", "auto-registered"]
    Meta := [("container_id", cid), ("image", cj.Image)]
    Check :=
      { Name := "TCP Check " ++ name
        TCP := cfg.NodeIP ++ ":" ++ fmtInt hostPort
        Interval := "15s"
        Timeout := "5s"
        DeregisterCriticalServiceAfter := "1m" } }

/-- The loop of main.go 150-189 over the entries still to visit. -/
def portLoop {σ : Type} (c : Agent σ) (cfg : Config) (cj : ContainerJSON) (name : String) :
    PortMap → World σ → Option (World σ)
  | [], w => some w
  | (_, []) :: rest, w => portLoop c cfg cj name rest w
  | (portKey, first :: _) :: rest, w =>
    match slice12 cj.ID with
    | none => none
    | some cid =>
      let reg := registration cfg cj name portKey first cid
      let (s, err) := c.ServiceRegister w.registry reg
      let line := if err then LogLine.kayitBasarisiz name
        else LogLine.kayitEdildi name reg.ID cfg.NodeIP reg.Port
      portLoop c cfg cj name rest
        { registry := s, submitted := w.submitted ++ [reg], log := w.log ++ [line] }

/-- The body of processContainer after a successful ContainerInspect, main.go 121-190. -/
def processSnapshot {σ : Type} (c : Agent σ) (cfg : Config) (cj : ContainerJSON)
    (w : World σ) : Option (World σ) :=
  if isIgnored cj then some w
  else if cj.Ports.length = 0 then some w
  else portLoop c cfg cj (serviceName cj) cj.Ports w

/-- processContainer (main.go 113-190). The Docker client d is its ContainerInspect:
none is the error return. -/
def processContainer {σ : Type} (d : String → Option ContainerJSON) (c : Agent σ)
    (containerID : String) (_action : String) (cfg : Config) (w : World σ) :
    Option (World σ) :=
  match d containerID with
  | none => some w
  | some cj => processSnapshot c cfg cj w

/-- deregisterContainer (main.go 193-195): an empty body. -/
def deregisterContainer {σ : Type} (_c : Agent σ) (_containerID : String) (w : World σ) :
    World σ := w

/-- The bootstrap scan of main.go 67-69 over the identifiers of the listed containers. -/
def bootstrap {σ : Type} (d : String → Option ContainerJSON) (c : Agent σ) (cfg : Config) :
    List String → World σ → Option (World σ)
  | [], w => some w
  | id :: ids, w =>
    match processContainer d c id "register" cfg w with
    | none => none
    | some w1 => bootstrap d c cfg ids w1

/-- The event handler of main.go 94-103, run to completion for one message. -/
def handleEvent {σ : Type} (d : String → Option ContainerJSON) (c : Agent σ) (cfg : Config)
    (mAction mID : String) (w : World σ) : Option (World σ) :=
  if mAction = "start" then processContainer d c mID "register" cfg w
  else if mAction = "die" then some (deregisterContainer c mID w)
  else some w

/-! ## Registries used in the statements -/

/-- A registry that accepts every registration and keeps nothing. -/
def okAgent : Agent Unit := ⟨fun _ _ => ((), false)⟩

/-- The registry of the idempotency property of the specification: a map keyed by record ID. -/
abbrev Registry := String → Option AgentServiceRegistration

/-- The agent over the map registry: ServiceRegister is insert-or-replace by ID and always
succeeds. -/
def mapAgent : Agent Registry :=
  ⟨fun s r => (Function.update s r.ID (some r), false)⟩

/-- The empty registry. -/
def emptyRegistry : Registry := fun _ => none

/-- The world before anything has run. -/
def World.start {σ : Type} (s : σ) : World σ := ⟨s, [], []⟩

/-- The registrations a snapshot gives rise to, one for each port key that has a binding. -/
def recordsOf (cfg : Config) (cj : ContainerJSON) (cid : String) :
    PortMap → List AgentServiceRegistration
  | [] => []
  | (_, []) :: rest => recordsOf cfg cj cid rest
  | (portKey, first :: _) :: rest =>
    registration cfg cj (serviceName cj) portKey first cid :: recordsOf cfg cj cid rest

/-! ## Concrete snapshots -/

/-- The node of the end-to-end scenario: hostname node1, address 10.0.0.5. -/
def node1 : Config :=
  { NodeIP := "10.0.0.5", ConsulURL := "http://discovery-service:8500", HostName := "node1" }

/-- A container identifier as Docker issues them: 64 hexadecimal digits. -/
def sampleID : String := "4f1c2a9be07d5c3a8b6e4f1c2a9be07d5c3a8b6e4f1c2a9be07d5c3a8b6e0123"

/-- The snapshot of the end-to-end scenario: container sentiric-auth, SERVICE_NAME=AuthSvc,
8080/tcp bound to host port 33001. -/
def authSnapshot : ContainerJSON :=
  { ID := sampleID, Name := "/sentiric-auth", Env := ["SERVICE_NAME=AuthSvc"],
    Image := "sentiric/auth:latest", Ports := [("8080/tcp", [⟨"0.0.0.0", "33001"⟩])] }

/-- A resolver container that publishes 53/tcp and 53/udp on host port 53, with the tcp key
visited first. -/
def dnsSnapshot : ContainerJSON :=
  { ID := sampleID, Name := "/sentiric-dns", Env := ["PATH=/usr/bin"],
    Image := "sentiric/dns:latest",
    Ports := [("53/tcp", [⟨"0.0.0.0", "53"⟩]), ("53/udp", [⟨"0.0.0.0", "53"⟩])] }

/-- The snapshot dnsSnapshot with the udp key visited first. -/
def dnsSnapshotUdpFirst : ContainerJSON :=
  { dnsSnapshot with
    Ports := [("53/udp", [⟨"0.0.0.0", "53"⟩]), ("53/tcp", [⟨"0.0.0.0", "53"⟩])] }

/-- A Docker client whose ContainerInspect answers with the given snapshot for its identifier
and fails for every other identifier. -/
def inspectOnly (cj : ContainerJSON) : String → Option ContainerJSON :=
  fun id => if id = cj.ID then some cj else none

/-! ## Decimal numerals: formatting and parsing -/

theorem digitChar_toNat (d : Nat) (h : d < 10) : (Nat.digitChar d).toNat = 48 + d := by
  interval_cases d <;> rfl

theorem parseUintLoop_digit (c : Char) (cs : List Char) (n : Nat)
    (hc : 48 ≤ c.toNat ∧ c.toNat ≤ 57) (hn : n * 10 + (c.toNat - 48) ≤ maxUint64) :
    parseUintLoop (c :: cs) n = parseUintLoop cs (n * 10 + (c.toNat - 48)) := by
  have hmax : maxUint64 = 18446744073709551615 := by decide
  have h1 : ¬ (n ≥ maxUint64 / 10 + 1) := by
    rw [hmax] at hn ⊢
    omega
  have h2 : ¬ (n * 10 + (c.toNat - 48) > maxUint64) := by omega
  simp only [parseUintLoop, hc, and_self, if_true, h1, h2, if_false]

theorem parseUintLoop_toDigitsCore (f : Nat) :
    ∀ (n : Nat) (ds : List Char), n < f → n ≤ maxUint64 →
      parseUintLoop (Nat.toDigitsCore 10 f n ds) 0 = parseUintLoop ds n := by
  induction f with
  | zero => intro n ds h; omega
  | succ f ih =>
    intro n ds hf hn
    have hd : (Nat.digitChar (n % 10)).toNat = 48 + n % 10 :=
      digitChar_toNat _ (Nat.mod_lt _ (by decide))
    have hc : 48 ≤ (Nat.digitChar (n % 10)).toNat ∧ (Nat.digitChar (n % 10)).toNat ≤ 57 := by
      have := Nat.mod_lt n (show 10 > 0 by decide)
      omega
    simp only [Nat.toDigitsCore]
    split
    · rename_i h0
      rw [parseUintLoop_digit _ _ _ hc (by rw [hd]; omega)]
      congr 1
      rw [hd]
      omega
    · rename_i h0
      rw [ih (n / 10) _ (by omega) (by omega)]
      rw [parseUintLoop_digit _ _ _ hc (by rw [hd]; omega)]
      congr 1
      rw [hd]
      omega

theorem toDigitsCore_head (f : Nat) :
    ∀ (n : Nat) (ds : List Char),
      (∃ c cs, ds = c :: cs ∧ 48 ≤ c.toNat ∧ c.toNat ≤ 57) ∨ 0 < f →
      ∃ c cs, Nat.toDigitsCore 10 f n ds = c :: cs ∧ 48 ≤ c.toNat ∧ c.toNat ≤ 57 := by
  induction f with
  | zero =>
    intro n ds h
    rcases h with h | h
    · simpa [Nat.toDigitsCore] using h
    · omega
  | succ f ih =>
    intro n ds _
    have hd : (Nat.digitChar (n % 10)).toNat = 48 + n % 10 :=
      digitChar_toNat _ (Nat.mod_lt _ (by decide))
    have hc : 48 ≤ (Nat.digitChar (n % 10)).toNat ∧ (Nat.digitChar (n % 10)).toNat ≤ 57 := by
      have := Nat.mod_lt n (show 10 > 0 by decide)
      omega
    simp only [Nat.toDigitsCore]
    split
    · exact ⟨_, _, rfl, hc⟩
    · exact ih _ _ (Or.inl ⟨_, _, rfl, hc⟩)

theorem toDigits_head (n : Nat) :
    ∃ c cs, Nat.toDigits 10 n = c :: cs ∧ 48 ≤ c.toNat ∧ c.toNat ≤ 57 :=
  toDigitsCore_head (n + 1) n [] (Or.inr (Nat.succ_pos n))

theorem ParseUint_toDigits (n : Nat) (hn : n ≤ maxUint64) :
    ParseUint (Nat.toDigits 10 n) = (n, none) := by
  obtain ⟨c, cs, h, _⟩ := toDigits_head n
  have hne : Nat.toDigits 10 n ≠ [] := by rw [h]; exact List.cons_ne_nil _ _
  unfold ParseUint
  rw [if_neg hne]
  unfold Nat.toDigits
  rw [parseUintLoop_toDigitsCore (n + 1) n [] (Nat.lt_succ_self n) hn]
  rfl

theorem fmtInt_ofNat_data (n : Nat) : (fmtInt (Int.ofNat n)).data = Nat.toDigits 10 n := rfl

theorem fmtInt_negSucc_data (n : Nat) :
    (fmtInt (Int.negSucc n)).data = '-' :: Nat.toDigits 10 (n + 1) := rfl

/-- The round trip of strconv.Atoi over the %d rendering of a 64-bit int. -/
theorem Atoi_fmtInt (q : Int) (hlo : -(2 : Int) ^ 63 ≤ q) (hhi : q < (2 : Int) ^ 63) :
    Atoi (fmtInt q) = (q, none) := by
  have hmax : maxUint64 = 18446744073709551615 := by decide
  cases q with
  | ofNat n =>
    have hn : n < 2 ^ 63 := by
      have : ((n : Nat) : Int) < (2 : Int) ^ 63 := hhi
      exact_mod_cast this
    obtain ⟨c, cs, h, hc1, hc2⟩ := toDigits_head n
    have hplus : c ≠ '+' := by
      intro he; rw [he] at hc1; revert hc1; decide
    have hminus : c ≠ '-' := by
      intro he; rw [he] at hc1; revert hc1; decide
    unfold Atoi
    rw [fmtInt_ofNat_data, h]
    simp only [hplus, hminus, if_false]
    rw [← h]
    unfold parseIntSigned
    rw [ParseUint_toDigits n (by rw [hmax]; omega)]
    have h63 : ¬ (n ≥ 2 ^ 63) := by omega
    simp [h63]
    omega
  | negSucc n =>
    have hn : n + 1 ≤ 2 ^ 63 := by
      have h1 : -(2 : Int) ^ 63 ≤ Int.negSucc n := hlo
      rw [Int.negSucc_eq] at h1
      have h2 : ((n : Int) + 1) ≤ (2 : Int) ^ 63 := by omega
      exact_mod_cast h2
    unfold Atoi
    rw [fmtInt_negSucc_data]
    have h1 : ('-' : Char) ≠ '+' := by decide
    simp only [h1, if_false, if_true]
    unfold parseIntSigned
    rw [ParseUint_toDigits (n + 1) (by rw [hmax]; omega)]
    have h63 : ¬ (n + 1 > 2 ^ 63) := by omega
    simp [h63, Int.negSucc_eq]
    omega

theorem parseIntSigned_cases (neg : Bool) (cs : List Char) :
    parseIntSigned neg cs = (0, some NumError.ErrSyntax) ∨
    ∃ (un : Nat) (e : Option NumError), parseIntSigned neg cs =
      (if !neg && un ≥ 2 ^ 63 then ((2 : Int) ^ 63 - 1, some NumError.ErrRange)
       else if neg && un > 2 ^ 63 then (-(2 : Int) ^ 63, some NumError.ErrRange)
       else (if neg then -(un : Int) else (un : Int), none)) ∧ ParseUint cs = (un, e) := by
  unfold parseIntSigned
  rcases ParseUint cs with ⟨un, err⟩
  rcases err with _ | e
  · exact Or.inr ⟨un, none, rfl, rfl⟩
  · cases e
    · exact Or.inl rfl
    · exact Or.inr ⟨un, _, rfl, rfl⟩

theorem parseIntSigned_range (neg : Bool) (cs : List Char) :
    -(2 : Int) ^ 63 ≤ (parseIntSigned neg cs).1 ∧ (parseIntSigned neg cs).1 < (2 : Int) ^ 63 := by
  rcases parseIntSigned_cases neg cs with h | ⟨un, e, h, _⟩
  · rw [h]; norm_num
  · rw [h]
    by_cases h1 : (!neg && decide (un ≥ 2 ^ 63)) = true
    · rw [if_pos h1]; norm_num
    · rw [if_neg h1]
      by_cases h2 : (neg && decide (un > 2 ^ 63)) = true
      · rw [if_pos h2]; norm_num
      · rw [if_neg h2]
        cases neg with
        | false =>
          simp only [Bool.not_false, Bool.true_and, decide_eq_true_eq] at h1
          simp only [Bool.false_eq_true, if_false]
          constructor <;> omega
        | true =>
          simp only [Bool.true_and, decide_eq_true_eq] at h2
          simp only [if_true]
          constructor <;> omega

theorem Atoi_range (s : String) :
    -(2 : Int) ^ 63 ≤ (Atoi s).1 ∧ (Atoi s).1 < (2 : Int) ^ 63 := by
  unfold Atoi
  split
  · norm_num
  · split
    · exact parseIntSigned_range _ _
    · split
      · exact parseIntSigned_range _ _
      · exact parseIntSigned_range _ _

theorem Atoi_malformed_zero (s : String) (h : (Atoi s).2 = some NumError.ErrSyntax) :
    (Atoi s).1 = 0 := by
  have key : ∀ (neg : Bool) (cs : List Char),
      (parseIntSigned neg cs).2 = some NumError.ErrSyntax → (parseIntSigned neg cs).1 = 0 := by
    intro neg cs
    rcases parseIntSigned_cases neg cs with h | ⟨un, e, h, _⟩
    · rw [h]; intro _; rfl
    · rw [h]
      split
      · intro h; cases h
      · split
        · intro h; cases h
        · intro h; cases h
  revert h
  unfold Atoi
  split
  · intro _; rfl
  · split
    · exact key _ _
    · split
      · exact key _ _
      · exact key _ _

theorem fmtInt_injOn (a b : Int) (ha : -(2 : Int) ^ 63 ≤ a ∧ a < (2 : Int) ^ 63)
    (hb : -(2 : Int) ^ 63 ≤ b ∧ b < (2 : Int) ^ 63) (h : fmtInt a = fmtInt b) : a = b := by
  have h1 := Atoi_fmtInt a ha.1 ha.2
  have h2 := Atoi_fmtInt b hb.1 hb.2
  rw [h, h2] at h1
  exact (congrArg Prod.fst h1).symm

theorem append_left_cancel_string (p a b : String) (h : p ++ a = p ++ b) : a = b := by
  have h1 : (p ++ a).data = (p ++ b).data := congrArg String.data h
  rw [String.data_append, String.data_append] at h1
  exact String.ext (List.append_cancel_left h1)

/-! ## The environment map -/

theorem envStep_other (m : EnvMap) (e k : String) (h : entryKey e ≠ some k) :
    envStep m e k = m k := by
  unfold envStep
  unfold entryKey at h
  cases hs : splitEq e.data with
  | none => rfl
  | some kv =>
    obtain ⟨k1, v1⟩ := kv
    rw [hs] at h
    have hk : k ≠ (⟨k1⟩ : String) := by
      intro he
      apply h
      simp [he]
    simp only [Function.update_noteq hk]

theorem envStep_key (m : EnvMap) (e k v : String) (hk : entryKey e = some k)
    (hv : entryValue e = some v) : envStep m e k = cleanString v := by
  unfold envStep
  unfold entryKey at hk
  unfold entryValue at hv
  cases hs : splitEq e.data with
  | none => rw [hs] at hk; cases hk
  | some kv =>
    obtain ⟨k1, v1⟩ := kv
    rw [hs] at hk hv
    simp only [Option.map_some', Option.some.injEq] at hk hv
    subst hk hv
    simp only [Function.update_same]

theorem foldl_envStep_other (post : List String) (k : String)
    (h : ∀ e ∈ post, entryKey e ≠ some k) :
    ∀ m : EnvMap, post.foldl envStep m k = m k := by
  induction post with
  | nil => intro m; rfl
  | cons e post ih =>
    intro m
    rw [List.foldl_cons, ih (fun e' he' => h e' (List.mem_cons_of_mem _ he'))]
    exact envStep_other m e k (h e (List.mem_cons_self _ _))

/-- The entry that decides envMap[k] is the last one with key k. -/
theorem parseEnv_last (pre post : List String) (e k v : String)
    (hk : entryKey e = some k) (hv : entryValue e = some v)
    (hpost : ∀ e' ∈ post, entryKey e' ≠ some k) :
    parseEnv (pre ++ e :: post) k = cleanString v := by
  unfold parseEnv
  rw [List.foldl_append, List.foldl_cons, foldl_envStep_other post k hpost]
  exact envStep_key _ e k v hk hv

theorem parseEnv_absent (env : List String) (k : String)
    (h : ∀ e ∈ env, entryKey e ≠ some k) : parseEnv env k = "" := by
  unfold parseEnv
  rw [foldl_envStep_other env k h]

/-! ## Strings -/

theorem toLower_eq_empty (s : String) : toLower s = "" ↔ s = "" := by
  constructor
  · intro h
    have h1 : (toLower s).data = [] := by rw [h]
    unfold toLower at h1
    have h2 : s.data = [] := List.map_eq_nil_iff.mp h1
    exact String.ext h2
  · intro h; subst h; rfl

theorem TrimPrefix_append (p x : String) : TrimPrefix (p ++ x) p = x := by
  unfold TrimPrefix
  have h : p.data.isPrefixOf (p ++ x).data = true := by
    rw [String.data_append]
    exact List.isPrefixOf_iff_prefix.mpr (List.prefix_append _ _)
  rw [if_pos h]
  apply String.ext
  rw [String.data_append]
  exact List.drop_left _ _

set_option maxRecDepth 100000 in
theorem lowerCaseRanges_targets : ∀ e ∈ lowerCaseRanges, 90 < e.2.2.2 := by
  decide

theorem lookupLower_gt (l : List (Nat × Nat × Nat × Nat)) (h : ∀ e ∈ l, 90 < e.2.2.2)
    (n : Nat) (hn : 90 < n) : 90 < lookupLower l n := by
  induction l with
  | nil => exact hn
  | cons e rest ih =>
    obtain ⟨lo, hi, step, t⟩ := e
    have ht : 90 < t := h (lo, hi, step, t) (List.mem_cons_self _ _)
    unfold lookupLower
    split
    · omega
    · exact ih (fun e he => h e (List.mem_cons_of_mem _ he))

theorem toNat_ofNat_le (k : Nat) : (Char.ofNat k).toNat = k ∨ (Char.ofNat k).toNat = 0 := by
  unfold Char.ofNat
  split
  · left; rfl
  · right; rfl

/-- No rune in the range of unicode.ToLower is one of the letters A to Z. -/
theorem toLowerRune_not_capital (c : Char) :
    ¬ (65 ≤ (toLowerRune c).toNat ∧ (toLowerRune c).toNat ≤ 90) := by
  unfold toLowerRune
  split
  · split
    · rename_i h1 h2
      rcases toNat_ofNat_le (c.toNat + 32) with h | h <;> rw [h] <;> omega
    · rename_i h1 h2
      exact h2
  · rename_i h1
    have hgt : 90 < lookupLower lowerCaseRanges c.toNat :=
      lookupLower_gt _ lowerCaseRanges_targets _ (by omega)
    rcases toNat_ofNat_le (lookupLower lowerCaseRanges c.toNat) with h | h <;> rw [h] <;> omega

theorem toLower_no_capital (s : String) :
    ∀ c ∈ (toLower s).data, ¬ (65 ≤ c.toNat ∧ c.toNat ≤ 90) := by
  intro c hc
  unfold toLower at hc
  obtain ⟨c0, _, rfl⟩ := List.mem_map.mp hc
  exact toLowerRune_not_capital c0

/-- On ASCII, unicode.ToLower adds 32 to the letters A to Z and keeps every other rune. -/
theorem toLowerRune_ascii (c : Char) (h : c.toNat < 128) :
    toLowerRune c = if 65 ≤ c.toNat ∧ c.toNat ≤ 90 then Char.ofNat (c.toNat + 32) else c := by
  unfold toLowerRune
  rw [if_pos h]

/-! ## The port loop -/

theorem slice12_of_le (s : String) (h : 12 ≤ s.utf8ByteSize) :
    slice12 s = some ⟨bytePrefix 12 s.data⟩ := by
  unfold slice12
  rw [if_neg (by omega)]

/-- With the slice in bounds the loop runs to its end, whatever the registry answers: it
submits one registration for each port key that has a binding, in the order of the visit,
and the registry has seen exactly these calls. -/
theorem portLoop_spec {σ : Type} (c : Agent σ) (cfg : Config) (cj : ContainerJSON)
    (cid : String) (hcid : slice12 cj.ID = some cid) :
    ∀ (ports : PortMap) (w : World σ),
      ∃ w1, portLoop c cfg cj (serviceName cj) ports w = some w1 ∧
        w1.submitted = w.submitted ++ recordsOf cfg cj cid ports ∧
        w1.registry = (recordsOf cfg cj cid ports).foldl
          (fun s r => (c.ServiceRegister s r).1) w.registry := by
  intro ports
  induction ports with
  | nil => intro w; exact ⟨w, rfl, by simp [recordsOf], rfl⟩
  | cons e rest ih =>
    intro w
    obtain ⟨k, bs⟩ := e
    cases bs with
    | nil =>
      obtain ⟨w1, h1, h2, h3⟩ := ih w
      exact ⟨w1, by rw [portLoop]; exact h1, by rw [recordsOf]; exact h2,
        by rw [recordsOf]; exact h3⟩
    | cons b bs =>
      obtain ⟨w1, h1, h2, h3⟩ := ih
        { registry := (c.ServiceRegister w.registry
            (registration cfg cj (serviceName cj) k b cid)).1
          submitted := w.submitted ++ [registration cfg cj (serviceName cj) k b cid]
          log := w.log ++
            [if (c.ServiceRegister w.registry
                (registration cfg cj (serviceName cj) k b cid)).2
              then LogLine.kayitBasarisiz (serviceName cj)
              else LogLine.kayitEdildi (serviceName cj)
                (registration cfg cj (serviceName cj) k b cid).ID cfg.NodeIP
                (registration cfg cj (serviceName cj) k b cid).Port] }
      refine ⟨w1, ?_, ?_, ?_⟩
      · rw [portLoop, hcid]
        exact h1
      · rw [h2, recordsOf]
        simp
      · rw [h3, recordsOf]
        rfl

/-- The registrations handed over do not depend on what the registry answers. -/
theorem portLoop_agent_irrelevant {σ τ : Type} (c : Agent σ) (c0 : Agent τ) (cfg : Config)
    (cj : ContainerJSON) (name : String) :
    ∀ (ports : PortMap) (w : World σ) (w0 : World τ), w.submitted = w0.submitted →
      (portLoop c cfg cj name ports w).map (fun x => x.submitted) =
        (portLoop c0 cfg cj name ports w0).map (fun x => x.submitted) := by
  intro ports
  induction ports with
  | nil => intro w w0 h; simp [portLoop, h]
  | cons e rest ih =>
    intro w w0 h
    obtain ⟨k, bs⟩ := e
    cases bs with
    | nil => rw [portLoop, portLoop]; exact ih w w0 h
    | cons b bs =>
      rw [portLoop, portLoop]
      cases hs : slice12 cj.ID with
      | none => rfl
      | some cid =>
        simp only []
        apply ih
        simp only [h]

theorem processSnapshot_agent_irrelevant {σ τ : Type} (c : Agent σ) (c0 : Agent τ)
    (cfg : Config) (cj : ContainerJSON) (w : World σ) (w0 : World τ)
    (h : w.submitted = w0.submitted) :
    (processSnapshot c cfg cj w).map (fun x => x.submitted) =
      (processSnapshot c0 cfg cj w0).map (fun x => x.submitted) := by
  unfold processSnapshot
  split
  · simp [h]
  · split
    · simp [h]
    · exact portLoop_agent_irrelevant c c0 cfg cj _ _ w w0 h

theorem processContainer_agent_irrelevant {σ τ : Type} (d : String → Option ContainerJSON)
    (c : Agent σ) (c0 : Agent τ) (containerID action : String)
    (cfg : Config) (w : World σ) (w0 : World τ)
    (h : w.submitted = w0.submitted) :
    (processContainer d c containerID action cfg w).map (fun x => x.submitted) =
      (processContainer d c0 containerID action cfg w0).map (fun x => x.submitted) := by
  unfold processContainer
  cases d containerID with
  | none => simp [h]
  | some cj => exact processSnapshot_agent_irrelevant c c0 cfg cj w w0 h

theorem bootstrap_agent_irrelevant {σ τ : Type} (d : String → Option ContainerJSON)
    (c : Agent σ) (c0 : Agent τ) (cfg : Config) :
    ∀ (ids : List String) (w : World σ) (w0 : World τ), w.submitted = w0.submitted →
      (bootstrap d c cfg ids w).map (fun x => x.submitted) =
        (bootstrap d c0 cfg ids w0).map (fun x => x.submitted) := by
  intro ids
  induction ids with
  | nil => intro w w0 h; simp [bootstrap, h]
  | cons id ids ih =>
    intro w w0 h
    have hp := processContainer_agent_irrelevant d c c0 id "register" cfg w w0 h
    rw [bootstrap, bootstrap]
    cases h1 : processContainer d c id "register" cfg w with
    | none =>
      rw [h1] at hp
      cases h2 : processContainer d c0 id "register" cfg w0 with
      | none => rfl
      | some w2 => rw [h2] at hp; cases hp
    | some w1 =>
      rw [h1] at hp
      cases h2 : processContainer d c0 id "register" cfg w0 with
      | none => rw [h2] at hp; cases hp
      | some w2 =>
        rw [h2] at hp
        simp only [Option.map_some', Option.some.injEq] at hp
        exact ih w1 w2 hp

/-- A snapshot that is not ignored and whose identifier has 12 bytes or more is processed to
the end: one registration for each port key with a binding. -/
theorem processSnapshot_spec {σ : Type} (c : Agent σ) (cfg : Config) (cj : ContainerJSON)
    (w : World σ) (hign : isIgnored cj = false) (hid : 12 ≤ cj.ID.utf8ByteSize) :
    ∃ w1, processSnapshot c cfg cj w = some w1 ∧
      w1.submitted = w.submitted ++ recordsOf cfg cj ⟨bytePrefix 12 cj.ID.data⟩ cj.Ports ∧
      w1.registry = (recordsOf cfg cj ⟨bytePrefix 12 cj.ID.data⟩ cj.Ports).foldl
        (fun s r => (c.ServiceRegister s r).1) w.registry := by
  unfold processSnapshot
  rw [hign]
  simp only [Bool.false_eq_true, if_false]
  split
  · rename_i h0
    have : cj.Ports = [] := List.length_eq_zero.mp h0
    rw [this]
    exact ⟨w, rfl, by simp [recordsOf], rfl⟩
  · exact portLoop_spec c cfg cj _ (slice12_of_le _ hid) cj.Ports w

theorem processContainer_spec {σ : Type} (d : String → Option ContainerJSON) (c : Agent σ)
    (containerID action : String) (cfg : Config) (cj : ContainerJSON) (w : World σ)
    (hd : d containerID = some cj) (hign : isIgnored cj = false)
    (hid : 12 ≤ cj.ID.utf8ByteSize) :
    ∃ w1, processContainer d c containerID action cfg w = some w1 ∧
      w1.submitted = w.submitted ++ recordsOf cfg cj ⟨bytePrefix 12 cj.ID.data⟩ cj.Ports ∧
      w1.registry = (recordsOf cfg cj ⟨bytePrefix 12 cj.ID.data⟩ cj.Ports).foldl
        (fun s r => (c.ServiceRegister s r).1) w.registry := by
  unfold processContainer
  rw [hd]
  exact processSnapshot_spec c cfg cj w hign hid

theorem mem_recordsOf (cfg : Config) (cj : ContainerJSON) (cid : String) (p : Port)
    (b : PortBinding) (bs : List PortBinding) :
    ∀ ports : PortMap, (p, b :: bs) ∈ ports →
      registration cfg cj (serviceName cj) p b cid ∈ recordsOf cfg cj cid ports := by
  intro ports
  induction ports with
  | nil => intro h; cases h
  | cons e rest ih =>
    intro h
    obtain ⟨k, l⟩ := e
    rcases List.mem_cons.mp h with h1 | h1
    · cases h1
      rw [recordsOf]
      exact List.mem_cons_self _ _
    · cases l with
      | nil => rw [recordsOf]; exact ih h1
      | cons b1 l1 => rw [recordsOf]; exact List.mem_cons_of_mem _ (ih h1)

theorem recordsOf_name (cfg : Config) (cj : ContainerJSON) (cid : String) :
    ∀ ports : PortMap, ∀ r ∈ recordsOf cfg cj cid ports, r.Name = serviceName cj := by
  intro ports
  induction ports with
  | nil => intro r h; cases h
  | cons e rest ih =>
    intro r h
    obtain ⟨k, l⟩ := e
    cases l with
    | nil => rw [recordsOf] at h; exact ih r h
    | cons b1 l1 =>
      rw [recordsOf] at h
      rcases List.mem_cons.mp h with h1 | h1
      · rw [h1]; rfl
      · exact ih r h1

theorem recordsOf_eq_filterMap (cfg : Config) (cj : ContainerJSON) (cid : String) :
    ∀ ports : PortMap, recordsOf cfg cj cid ports =
      ports.filterMap (fun e => match e.2 with
        | [] => none
        | b :: _ => some (registration cfg cj (serviceName cj) e.1 b cid)) := by
  intro ports
  induction ports with
  | nil => rfl
  | cons e rest ih =>
    obtain ⟨k, l⟩ := e
    cases l with
    | nil => rw [recordsOf, ih]; rfl
    | cons b1 l1 => rw [recordsOf, ih]; rfl

theorem recordsOf_perm (cfg : Config) (cj : ContainerJSON) (cid : String)
    (ports1 ports2 : PortMap) (h : ports1.Perm ports2) :
    (recordsOf cfg cj cid ports1).Perm (recordsOf cfg cj cid ports2) := by
  rw [recordsOf_eq_filterMap, recordsOf_eq_filterMap]
  exact h.filterMap _

/-! ## The registry as a map -/

theorem upsert_foldl_not_mem (rs : List AgentServiceRegistration) (k : String)
    (h : k ∉ rs.map (fun r => r.ID)) :
    ∀ s : Registry, rs.foldl (fun s r => (mapAgent.ServiceRegister s r).1) s k = s k := by
  induction rs with
  | nil => intro s; rfl
  | cons a rs ih =>
    intro s
    rw [List.map_cons, List.mem_cons, not_or] at h
    rw [List.foldl_cons, ih h.2]
    exact Function.update_noteq h.1 _ _

theorem upsert_foldl_mem (rs : List AgentServiceRegistration)
    (hnd : (rs.map (fun r => r.ID)).Nodup) :
    ∀ (s : Registry) (r : AgentServiceRegistration), r ∈ rs →
      rs.foldl (fun s r => (mapAgent.ServiceRegister s r).1) s r.ID = some r := by
  induction rs with
  | nil => intro s r h; cases h
  | cons a rs ih =>
    intro s r h
    rw [List.map_cons, List.nodup_cons] at hnd
    rw [List.foldl_cons]
    rcases List.mem_cons.mp h with h1 | h1
    · subst h1
      rw [upsert_foldl_not_mem rs _ hnd.1]
      exact Function.update_same _ _ _
    · exact ih hnd.2 _ r h1

/-- Upserting a permutation of records with distinct IDs a second time changes nothing. -/
theorem upsert_twice (rs1 rs2 : List AgentServiceRegistration) (hp : rs1.Perm rs2)
    (hnd : (rs1.map (fun r => r.ID)).Nodup) (s : Registry) :
    rs2.foldl (fun s r => (mapAgent.ServiceRegister s r).1)
      (rs1.foldl (fun s r => (mapAgent.ServiceRegister s r).1) s) =
    rs1.foldl (fun s r => (mapAgent.ServiceRegister s r).1) s := by
  funext k
  have hnd2 : (rs2.map (fun r => r.ID)).Nodup := (hp.map _).nodup_iff.mp hnd
  by_cases hk : k ∈ rs2.map (fun r => r.ID)
  · obtain ⟨r, hr, rfl⟩ := List.mem_map.mp hk
    rw [upsert_foldl_mem rs2 hnd2 _ r hr, upsert_foldl_mem rs1 hnd s r (hp.mem_iff.mpr hr)]
  · rw [upsert_foldl_not_mem rs2 k hk]

theorem upsert_foldl_mem_indep (rs : List AgentServiceRegistration) (k : String) :
    ∀ s1 s2 : Registry, k ∈ rs.map (fun r => r.ID) →
      rs.foldl (fun s r => (mapAgent.ServiceRegister s r).1) s1 k =
        rs.foldl (fun s r => (mapAgent.ServiceRegister s r).1) s2 k := by
  induction rs with
  | nil => intro s1 s2 h; cases h
  | cons a rs ih =>
    intro s1 s2 h
    rw [List.foldl_cons, List.foldl_cons]
    by_cases hk : k ∈ rs.map (fun r => r.ID)
    · exact ih _ _ hk
    · rw [upsert_foldl_not_mem rs k hk, upsert_foldl_not_mem rs k hk]
      rw [List.map_cons, List.mem_cons] at h
      rcases h with h | h
      · subst h
        show Function.update s1 a.ID (some a) a.ID = Function.update s2 a.ID (some a) a.ID
        rw [Function.update_same, Function.update_same]
      · exact absurd h hk

/-- Upserting the same list of records a second time changes nothing. -/
theorem upsert_same_twice (rs : List AgentServiceRegistration) (s : Registry) :
    rs.foldl (fun s r => (mapAgent.ServiceRegister s r).1)
      (rs.foldl (fun s r => (mapAgent.ServiceRegister s r).1) s) =
    rs.foldl (fun s r => (mapAgent.ServiceRegister s r).1) s := by
  funext k
  by_cases hk : k ∈ rs.map (fun r => r.ID)
  · exact upsert_foldl_mem_indep rs k _ _ hk
  · rw [upsert_foldl_not_mem rs k hk]

theorem processContainer_ignored {σ : Type} (d : String → Option ContainerJSON) (c : Agent σ)
    (containerID action : String) (cfg : Config) (cj : ContainerJSON) (w : World σ)
    (hd : d containerID = some cj) (hign : isIgnored cj = true) :
    processContainer d c containerID action cfg w = some w := by
  unfold processContainer
  rw [hd]
  show processSnapshot c cfg cj w = some w
  unfold processSnapshot
  rw [if_pos hign]

theorem recordsOf_congr (cfg : Config) (cj1 cj2 : ContainerJSON) (cid : String)
    (hname : serviceName cj1 = serviceName cj2) (himg : cj1.Image = cj2.Image) :
    ∀ ports : PortMap, recordsOf cfg cj1 cid ports = recordsOf cfg cj2 cid ports := by
  intro ports
  induction ports with
  | nil => rfl
  | cons e rest ih =>
    obtain ⟨k, l⟩ := e
    cases l with
    | nil => rw [recordsOf, recordsOf]; exact ih
    | cons b l =>
      rw [recordsOf, recordsOf, ih, hname]
      unfold registration
      rw [himg]

/-! ## The claims -/

/-- C1: for a snapshot that is not ignored (identifier of 12 bytes or more) and a port key p
whose first host binding is the decimal rendering of a 64-bit integer q, processContainer
submits a registration with ID hostname-name-q, the derived name, the node address, port q,
tags [protocol of p, sentiric, auto-registered] and a TCP check at address:q with interval
15s, timeout 5s and deregister-after-critical 1m. The end-to-end scenario (SERVICE_NAME=AuthSvc,
8080/tcp bound to 33001, node1 at 10.0.0.5) submits exactly one registration, with ID
node1-authsvc-33001, name authsvc, address 10.0.0.5, port 33001, a tag tcp and a TCP check at
10.0.0.5:33001 every 15s. -/
theorem C1_processContainer_registers_endpoint {σ : Type}
    (d : String → Option ContainerJSON) (c : Agent σ) (containerID action : String)
    (cfg : Config) (cj : ContainerJSON) (w : World σ) (p : Port) (b : PortBinding)
    (bs : List PortBinding) (q : Int)
    (hd : d containerID = some cj) (hign : isIgnored cj = false)
    (hid : 12 ≤ cj.ID.utf8ByteSize) (hmem : (p, b :: bs) ∈ cj.Ports)
    (hq : b.HostPort = fmtInt q) (hlo : -(2 : Int) ^ 63 ≤ q) (hhi : q < (2 : Int) ^ 63) :
    (∃ w1 new r, processContainer d c containerID action cfg w = some w1 ∧
      w1.submitted = w.submitted ++ new ∧ r ∈ new ∧
      r.ID = cfg.HostName ++ "-" ++ serviceName cj ++ "-" ++ fmtInt q ∧
      r.Name = serviceName cj ∧ r.Address = cfg.NodeIP ∧ r.Port = q ∧
      r.Tags = [Proto p, "sentiric", "auto-registered"] ∧
      r.Check.TCP = cfg.NodeIP ++ ":" ++ fmtInt q ∧ r.Check.Interval = "15s" ∧
      r.Check.Timeout = "5s" ∧ r.Check.DeregisterCriticalServiceAfter = "1m") ∧
    (∀ (id rawName image hostIP consulURL : String), 12 ≤ id.utf8ByteSize →
      ∃ w1 r, processContainer
          (fun _ => some ⟨id, rawName, ["SERVICE_NAME=AuthSvc"], image,
            [("8080/tcp", [⟨hostIP, "33001"⟩])]⟩)
          c containerID action ⟨"10.0.0.5", consulURL, "node1"⟩ w = some w1 ∧
        w1.submitted = w.submitted ++ [r] ∧
        r.ID = "node1-authsvc-33001" ∧ r.Name = "authsvc" ∧ r.Address = "10.0.0.5" ∧
        r.Port = 33001 ∧ "tcp" ∈ r.Tags ∧ r.Check.TCP = "10.0.0.5:33001" ∧
        r.Check.Interval = "15s") := by
  constructor
  · obtain ⟨w1, h1, h2, _⟩ := processContainer_spec d c containerID action cfg cj w hd hign hid
    have hport : (Atoi b.HostPort).1 = q := by
      rw [hq, Atoi_fmtInt q hlo hhi]
    refine ⟨w1, _, _, h1, h2, mem_recordsOf cfg cj _ p b bs cj.Ports hmem, ?_, rfl, rfl, ?_,
      rfl, ?_, rfl, rfl, rfl⟩
    · show cfg.HostName ++ "-" ++ serviceName cj ++ "-" ++ fmtInt (Atoi b.HostPort).1 = _
      rw [hport]
    · exact hport
    · show cfg.NodeIP ++ ":" ++ fmtInt (Atoi b.HostPort).1 = _
      rw [hport]
  · intro id rawName image hostIP consulURL hid1
    obtain ⟨w1, h1, h2, _⟩ := processContainer_spec
      (fun _ => some ⟨id, rawName, ["SERVICE_NAME=AuthSvc"], image,
        [("8080/tcp", [⟨hostIP, "33001"⟩])]⟩)
      c containerID action ⟨"10.0.0.5", consulURL, "node1"⟩ _ w rfl rfl hid1
    exact ⟨w1, _, h1, h2, rfl, rfl, rfl, rfl, List.mem_cons_self _ _, rfl, rfl⟩

/-- C1 at the end-to-end scenario. -/
theorem C1_witness :
    ∃ w1 new r, processContainer (inspectOnly authSnapshot) okAgent sampleID "register" node1
        (World.start ()) = some w1 ∧
      w1.submitted = [] ++ new ∧ r ∈ new ∧
      r.ID = "node1" ++ "-" ++ serviceName authSnapshot ++ "-" ++ fmtInt 33001 ∧
      r.Name = serviceName authSnapshot ∧ r.Address = "10.0.0.5" ∧ r.Port = 33001 ∧
      r.Tags = [Proto "8080/tcp", "sentiric", "auto-registered"] ∧
      r.Check.TCP = "10.0.0.5" ++ ":" ++ fmtInt 33001 ∧ r.Check.Interval = "15s" ∧
      r.Check.Timeout = "5s" ∧ r.Check.DeregisterCriticalServiceAfter = "1m" :=
  (C1_processContainer_registers_endpoint (inspectOnly authSnapshot) okAgent sampleID
    "register" node1 authSnapshot (World.start ()) "8080/tcp" ⟨"0.0.0.0", "33001"⟩ [] 33001
    (by decide) (by decide) (by decide) (by decide) (by decide) (by decide) (by decide)).1

/-- C2 as stated fails: the value is trimmed of quotes and spaces before use (the quoted
override "AuthSvc" gives authsvc, not the lower-cased quoted text), an override that is empty
falls back to the raw name, and of two SERVICE_NAME entries only the last one counts. -/
theorem C2_counterexample :
    (entryKey "SERVICE_NAME=\"AuthSvc\"" = some "SERVICE_NAME" ∧
      entryValue "SERVICE_NAME=\"AuthSvc\"" = some "\"AuthSvc\"" ∧
      serviceName ⟨sampleID, "/sentiric-auth", ["SERVICE_NAME=\"AuthSvc\""], "img", []⟩
        = "authsvc" ∧
      toLower "\"AuthSvc\"" = "\"authsvc\"" ∧
      serviceName ⟨sampleID, "/sentiric-auth", ["SERVICE_NAME=\"AuthSvc\""], "img", []⟩
        ≠ toLower "\"AuthSvc\"") ∧
    (entryKey "SERVICE_NAME=" = some "SERVICE_NAME" ∧
      entryValue "SERVICE_NAME=" = some "" ∧
      serviceName ⟨sampleID, "/sentiric-auth", ["SERVICE_NAME="], "img", []⟩ = "auth" ∧
      serviceName ⟨sampleID, "/sentiric-auth", ["SERVICE_NAME="], "img", []⟩ ≠ toLower "") ∧
    (entryKey "SERVICE_NAME=Alpha" = some "SERVICE_NAME" ∧
      entryValue "SERVICE_NAME=Alpha" = some "Alpha" ∧
      serviceName ⟨sampleID, "/sentiric-auth", ["SERVICE_NAME=Alpha", "SERVICE_NAME=Beta"],
        "img", []⟩ = "beta" ∧
      serviceName ⟨sampleID, "/sentiric-auth", ["SERVICE_NAME=Alpha", "SERVICE_NAME=Beta"],
        "img", []⟩ ≠ toLower "Alpha") := by
  decide

/-- C2, amended: when the last environment entry with key SERVICE_NAME has a value that is
not empty once its surrounding double quotes, single quotes and spaces are trimmed, the
derived service name is the lower-cased trimmed value, whatever the raw container name.
Lower-cased is rune by rune by unicode.ToLower: on ASCII the letters A to Z move to a to z and
nothing else changes, no letter A to Z remains in the name, AuthSvc gives authsvc and
ÇAĞRI-İŞ gives çağri-iş. -/
theorem C2_override_takes_precedence (cj : ContainerJSON) (pre post : List String)
    (e v : String) (henv : cj.Env = pre ++ e :: post)
    (hk : entryKey e = some "SERVICE_NAME") (hv : entryValue e = some v)
    (hlast : ∀ e1 ∈ post, entryKey e1 ≠ some "SERVICE_NAME")
    (hne : cleanString v ≠ "") :
    serviceName cj = toLower (cleanString v) ∧
    (serviceName cj).data = (cleanString v).data.map toLowerRune ∧
    (∀ c : Char, c.toNat < 128 →
      toLowerRune c = if 65 ≤ c.toNat ∧ c.toNat ≤ 90 then Char.ofNat (c.toNat + 32) else c) ∧
    (∀ c ∈ (serviceName cj).data, ¬ (65 ≤ c.toNat ∧ c.toNat ≤ 90)) ∧
    (cleanString v = "AuthSvc" → serviceName cj = "authsvc") ∧
    (cleanString v = "ÇAĞRI-İŞ" → serviceName cj = "çağri-iş") ∧
    ∀ rawName : String, serviceName { cj with Name := rawName } = serviceName cj := by
  have h1 : ∀ rawName : String,
      serviceName { cj with Name := rawName } = toLower (cleanString v) := by
    intro rawName
    unfold serviceName
    simp only []
    rw [henv, parseEnv_last pre post e "SERVICE_NAME" v hk hv hlast, if_neg hne]
    rfl
  have h0 : serviceName cj = toLower (cleanString v) := h1 cj.Name
  refine ⟨h0, ?_, toLowerRune_ascii, ?_, ?_, ?_, ?_⟩
  · rw [h0]; rfl
  · rw [h0]; exact toLower_no_capital _
  · intro hv1
    rw [h0, hv1]
    decide
  · intro hv1
    rw [h0, hv1]
    decide
  · intro rawName
    rw [h1 rawName]
    exact h0.symm

/-- C2 amended, at the end-to-end snapshot (override AuthSvc) and at a container whose
override is the quoted text ÇAĞRI-İŞ. -/
theorem C2_witness :
    serviceName authSnapshot = "authsvc" ∧
    serviceName { authSnapshot with Env := ["SERVICE_NAME= \"ÇAĞRI-İŞ\""] } = "çağri-iş" ∧
    ∀ rawName : String,
      serviceName { authSnapshot with Name := rawName } = serviceName authSnapshot :=
  ⟨(C2_override_takes_precedence authSnapshot [] [] "SERVICE_NAME=AuthSvc" "AuthSvc"
      (by decide) (by decide) (by decide) (by decide) (by decide)).2.2.2.2.1 (by decide),
   (C2_override_takes_precedence
      { authSnapshot with Env := ["SERVICE_NAME= \"ÇAĞRI-İŞ\""] } [] []
      "SERVICE_NAME= \"ÇAĞRI-İŞ\"" " \"ÇAĞRI-İŞ\""
      (by decide) (by decide) (by decide) (by decide) (by decide)).2.2.2.2.2.1 (by decide),
   (C2_override_takes_precedence authSnapshot [] [] "SERVICE_NAME=AuthSvc" "AuthSvc"
      (by decide) (by decide) (by decide) (by decide) (by decide)).2.2.2.2.2.2⟩

/-- C3 as stated fails: a later SERVICE_IGNORE entry replaces the earlier one in envMap, so a
list that holds SERVICE_IGNORE=true followed by SERVICE_IGNORE=false is registered. -/
theorem C3_counterexample :
    entryKey "SERVICE_IGNORE=true" = some "SERVICE_IGNORE" ∧
    entryValue "SERVICE_IGNORE=true" = some "true" ∧
    (processContainer
      (inspectOnly { authSnapshot with Env := ["SERVICE_IGNORE=true", "SERVICE_IGNORE=false"] })
      okAgent sampleID "register" node1 (World.start ())).map (fun w => w.submitted.length)
      = some 1 := by
  decide

/-- C3, amended: when the environment list holds an entry SERVICE_IGNORE with value "true"
and no later entry has the key SERVICE_IGNORE, processContainer issues no registry call:
it returns with the registry, the list of submissions and the log unchanged, whatever the
name, the other entries and the port bindings are. -/
theorem C3_ignored_container_no_calls {σ : Type} (d : String → Option ContainerJSON)
    (c : Agent σ) (containerID action : String) (cfg : Config) (cj : ContainerJSON)
    (w : World σ) (pre post : List String) (e : String)
    (hd : d containerID = some cj) (henv : cj.Env = pre ++ e :: post)
    (hk : entryKey e = some "SERVICE_IGNORE") (hv : entryValue e = some "true")
    (hlast : ∀ e1 ∈ post, entryKey e1 ≠ some "SERVICE_IGNORE") :
    processContainer d c containerID action cfg w = some w := by
  have hign : isIgnored cj = true := by
    unfold isIgnored
    rw [henv, parseEnv_last pre post e "SERVICE_IGNORE" "true" hk hv hlast]
    decide
  unfold processContainer
  rw [hd]
  show processSnapshot c cfg cj w = some w
  unfold processSnapshot
  rw [if_pos hign]

/-- C3 amended, at the end-to-end snapshot with an ignore entry added. -/
theorem C3_witness :
    (processContainer
      (inspectOnly { authSnapshot with Env := ["SERVICE_NAME=AuthSvc", "SERVICE_IGNORE=true"] })
      mapAgent sampleID "register" node1 (World.start emptyRegistry)) =
      some (World.start emptyRegistry) :=
  C3_ignored_container_no_calls _ mapAgent sampleID "register" node1
    { authSnapshot with Env := ["SERVICE_NAME=AuthSvc", "SERVICE_IGNORE=true"] }
    (World.start emptyRegistry) ["SERVICE_NAME=AuthSvc"] [] "SERVICE_IGNORE=true"
    (by decide) (by decide) (by decide) (by decide) (by decide)

/-- C4 fails on the code: the comment at main.go 157 asks for a unique ID, but the ID holds
the host port and neither the protocol nor the container port, so the two keys 53/tcp and
53/udp, both bound to host port 53, give two registrations with one and the same ID. -/
theorem C4_same_host_port_same_ID :
    ("53/tcp" : Port) ≠ "53/udp" ∧ isIgnored dnsSnapshot = false ∧
    (processContainer (inspectOnly dnsSnapshot) okAgent sampleID "register" node1
      (World.start ())).map (fun w => w.submitted.map (fun r => (r.ID, r.Tags))) =
      some [("node1-dns-53", ["tcp", "sentiric", "auto-registered"]),
            ("node1-dns-53", ["udp", "sentiric", "auto-registered"])] := by
  decide

/-- Where the ID scheme does keep two endpoints apart: a snapshot that is not ignored and
publishes two port keys whose first host ports parse to different numbers gives exactly two
registrations, with distinct IDs of the form hostname-name-port. -/
theorem two_ports_distinct_IDs {σ : Type} (d : String → Option ContainerJSON)
    (c : Agent σ) (containerID action : String) (cfg : Config) (cj : ContainerJSON)
    (w : World σ) (k1 k2 : Port) (b1 b2 : PortBinding) (bs1 bs2 : List PortBinding)
    (hd : d containerID = some cj) (hign : isIgnored cj = false)
    (hid : 12 ≤ cj.ID.utf8ByteSize)
    (hports : cj.Ports = [(k1, b1 :: bs1), (k2, b2 :: bs2)]) (_hk : k1 ≠ k2)
    (hp : (Atoi b1.HostPort).1 ≠ (Atoi b2.HostPort).1) :
    ∃ w1 r1 r2, processContainer d c containerID action cfg w = some w1 ∧
      w1.submitted = w.submitted ++ [r1, r2] ∧ r1.ID ≠ r2.ID ∧
      r1.ID = cfg.HostName ++ "-" ++ serviceName cj ++ "-" ++ fmtInt r1.Port ∧
      r2.ID = cfg.HostName ++ "-" ++ serviceName cj ++ "-" ++ fmtInt r2.Port ∧
      r1.Port = (Atoi b1.HostPort).1 ∧ r2.Port = (Atoi b2.HostPort).1 := by
  obtain ⟨w1, h1, h2, _⟩ := processContainer_spec d c containerID action cfg cj w hd hign hid
  rw [hports] at h2
  refine ⟨w1, _, _, h1, h2, ?_, rfl, rfl, rfl, rfl⟩
  intro heq
  apply hp
  have h3 : fmtInt (Atoi b1.HostPort).1 = fmtInt (Atoi b2.HostPort).1 :=
    append_left_cancel_string (cfg.HostName ++ "-" ++ serviceName cj ++ "-") _ _ heq
  exact fmtInt_injOn _ _ (Atoi_range _) (Atoi_range _) h3

/-- C5 as stated fails: nothing skips port zero. A first host port that is not a numeral is
registered as port 0 under the ID hostname-name-0. -/
theorem C5_counterexample :
    Atoi "abc" = (0, some NumError.ErrSyntax) ∧
    (processContainer
      (inspectOnly { authSnapshot with Ports := [("8080/tcp", [⟨"0.0.0.0", "abc"⟩])] })
      okAgent sampleID "register" node1
      (World.start ())).map (fun w => w.submitted.map (fun r => (r.ID, r.Port, r.Check.TCP))) =
      some [("node1-authsvc-0", 0, "10.0.0.5:0")] := by
  decide

/-- C5, amended: a binding whose first host-port string strconv.Atoi rejects with a syntax
error is treated as port zero, and its registration is submitted all the same, with port 0,
ID hostname-name-0 and a TCP check at address:0. -/
theorem C5_unparsable_port_registered_as_zero {σ : Type}
    (d : String → Option ContainerJSON) (c : Agent σ) (containerID action : String)
    (cfg : Config) (cj : ContainerJSON) (w : World σ) (p : Port) (b : PortBinding)
    (bs : List PortBinding)
    (hd : d containerID = some cj) (hign : isIgnored cj = false)
    (hid : 12 ≤ cj.ID.utf8ByteSize) (hmem : (p, b :: bs) ∈ cj.Ports)
    (herr : (Atoi b.HostPort).2 = some NumError.ErrSyntax) :
    ∃ w1 new r, processContainer d c containerID action cfg w = some w1 ∧
      w1.submitted = w.submitted ++ new ∧ r ∈ new ∧ r.Port = 0 ∧
      r.ID = cfg.HostName ++ "-" ++ serviceName cj ++ "-" ++ "0" ∧
      r.Check.TCP = cfg.NodeIP ++ ":" ++ "0" := by
  obtain ⟨w1, h1, h2, _⟩ := processContainer_spec d c containerID action cfg cj w hd hign hid
  have hz : (Atoi b.HostPort).1 = 0 := Atoi_malformed_zero _ herr
  refine ⟨w1, _, _, h1, h2, mem_recordsOf cfg cj _ p b bs cj.Ports hmem, hz, ?_, ?_⟩
  · show cfg.HostName ++ "-" ++ serviceName cj ++ "-" ++ fmtInt (Atoi b.HostPort).1 = _
    rw [hz]
    rfl
  · show cfg.NodeIP ++ ":" ++ fmtInt (Atoi b.HostPort).1 = _
    rw [hz]
    rfl

/-- C5 amended, at a binding with an empty host port. -/
theorem C5_witness :
    ∃ w1 new r, processContainer
        (inspectOnly { authSnapshot with Ports := [("8080/tcp", [⟨"0.0.0.0", ""⟩])] })
        okAgent sampleID "register" node1 (World.start ()) = some w1 ∧
      w1.submitted = [] ++ new ∧ r ∈ new ∧ r.Port = 0 ∧
      r.ID = "node1" ++ "-" ++ serviceName authSnapshot ++ "-" ++ "0" ∧
      r.Check.TCP = "10.0.0.5" ++ ":" ++ "0" :=
  C5_unparsable_port_registered_as_zero _ okAgent sampleID "register" node1
    { authSnapshot with Ports := [("8080/tcp", [⟨"0.0.0.0", ""⟩])] }
    (World.start ()) "8080/tcp" ⟨"0.0.0.0", ""⟩ []
    (by decide) (by decide) (by decide) (by decide) (by decide)

/-- C6 as stated fails: a container named sentiric- (raw name /sentiric-) with no override is
not ignored, its derived name is empty, and its registration carries the empty name. -/
theorem C6_counterexample :
    isIgnored { authSnapshot with Name := "/sentiric-", Env := [] } = false ∧
    serviceName { authSnapshot with Name := "/sentiric-", Env := [] } = "" ∧
    (processContainer (inspectOnly { authSnapshot with Name := "/sentiric-", Env := [] })
      okAgent sampleID "register" node1
      (World.start ())).map (fun w => w.submitted.map (fun r => (r.ID, r.Name))) =
      some [("node1--33001", "")] := by
  decide

/-- C6, amended: for a snapshot that is not ignored and whose trimmed SERVICE_NAME value is
not empty, or whose raw name is not empty once one leading "/" and then one leading
"sentiric-" are removed, the derived service name is not empty, and every registration
processContainer submits carries that name. -/
theorem C6_name_nonempty {σ : Type} (d : String → Option ContainerJSON) (c : Agent σ)
    (containerID action : String) (cfg : Config) (cj : ContainerJSON) (w : World σ)
    (hd : d containerID = some cj) (hign : isIgnored cj = false)
    (hid : 12 ≤ cj.ID.utf8ByteSize)
    (hne : parseEnv cj.Env "SERVICE_NAME" ≠ "" ∨
      TrimPrefix (TrimPrefix cj.Name "/") "sentiric-" ≠ "") :
    serviceName cj ≠ "" ∧
    ∃ w1 new, processContainer d c containerID action cfg w = some w1 ∧
      w1.submitted = w.submitted ++ new ∧
      ∀ r ∈ new, r.Name = serviceName cj ∧ r.Name ≠ "" := by
  have hname : serviceName cj ≠ "" := by
    unfold serviceName sanitizeName
    simp only []
    intro h0
    rw [toLower_eq_empty] at h0
    by_cases he : parseEnv cj.Env "SERVICE_NAME" = ""
    · rw [if_pos he] at h0
      rcases hne with h | h
      · exact h he
      · exact h h0
    · rw [if_neg he] at h0
      exact he h0
  obtain ⟨w1, h1, h2, _⟩ := processContainer_spec d c containerID action cfg cj w hd hign hid
  refine ⟨hname, w1, _, h1, h2, ?_⟩
  intro r hr
  have := recordsOf_name cfg cj _ cj.Ports r hr
  exact ⟨this, by rw [this]; exact hname⟩

/-- C6 amended, at the end-to-end snapshot. -/
theorem C6_witness :
    serviceName authSnapshot ≠ "" ∧
    ∃ w1 new, processContainer (inspectOnly authSnapshot) okAgent sampleID "register" node1
        (World.start ()) = some w1 ∧
      w1.submitted = [] ++ new ∧
      ∀ r ∈ new, r.Name = serviceName authSnapshot ∧ r.Name ≠ "" :=
  C6_name_nonempty (inspectOnly authSnapshot) okAgent sampleID "register" node1 authSnapshot
    (World.start ()) (by decide) (by decide) (by decide) (Or.inl (by decide))

/-- C7 fails on the code: 53/tcp and 53/udp on host port 53 share one ID, against the comment
at main.go 157 that the ID be unique, and the range loop may visit the two keys in either
order. After a first run that visits tcp then udp the registry holds the udp record; after a
second run on the same snapshot that visits udp then tcp it holds the tcp record, so the state
after two runs differs from the state after one. -/
theorem C7_second_run_changes_registry :
    dnsSnapshot.Ports.Perm dnsSnapshotUdpFirst.Ports ∧
    (processContainer (inspectOnly dnsSnapshot) mapAgent sampleID "register" node1
      (World.start emptyRegistry)).map
        (fun w => (w.registry "node1-dns-53").map (fun r => r.Tags)) =
      some (some ["udp", "sentiric", "auto-registered"]) ∧
    ((processContainer (inspectOnly dnsSnapshot) mapAgent sampleID "register" node1
      (World.start emptyRegistry)).bind
        (processContainer (inspectOnly dnsSnapshotUdpFirst) mapAgent sampleID "register"
          node1)).map
        (fun w => (w.registry "node1-dns-53").map (fun r => r.Tags)) =
      some (some ["tcp", "sentiric", "auto-registered"]) := by
  refine ⟨List.Perm.swap _ _ _, ?_, ?_⟩
  · decide
  · decide

/-- Where re-registration is idempotent: processing the same snapshot (identifier of 12 bytes
or more) twice, the port map being visited in any two orders, submits the same registrations
both times up to their order; and on the map registry the state after the second run equals
the state after the first when the second run visits the port keys in the order of the first
or the registrations of the snapshot have pairwise distinct IDs. -/
theorem reregistration_idempotent (d1 d2 : String → Option ContainerJSON)
    (containerID action : String) (cfg : Config) (cj : ContainerJSON) (ports2 : PortMap)
    (w : World Registry)
    (hd1 : d1 containerID = some cj)
    (hd2 : d2 containerID = some { cj with Ports := ports2 })
    (hperm : cj.Ports.Perm ports2) (hid : 12 ≤ cj.ID.utf8ByteSize) :
    ∃ w1 w2 new1 new2,
      processContainer d1 mapAgent containerID action cfg w = some w1 ∧
      processContainer d2 mapAgent containerID action cfg w1 = some w2 ∧
      w1.submitted = w.submitted ++ new1 ∧ w2.submitted = w1.submitted ++ new2 ∧
      new1.Perm new2 ∧
      (ports2 = cj.Ports ∨ (new1.map (fun r => r.ID)).Nodup → w2.registry = w1.registry) := by
  cases hign : isIgnored cj with
  | true =>
    have h1 := processContainer_ignored d1 mapAgent containerID action cfg cj w hd1 hign
    have h2 := processContainer_ignored d2 mapAgent containerID action cfg
      { cj with Ports := ports2 } w hd2 hign
    exact ⟨w, w, [], [], h1, h2, by simp, by simp, List.Perm.refl _, fun _ => rfl⟩
  | false =>
    obtain ⟨w1, h1, h2, h3⟩ :=
      processContainer_spec d1 mapAgent containerID action cfg cj w hd1 hign hid
    obtain ⟨w2, k1, k2, k3⟩ :=
      processContainer_spec d2 mapAgent containerID action cfg { cj with Ports := ports2 } w1
        hd2 hign hid
    have hrec : recordsOf cfg { cj with Ports := ports2 } ⟨bytePrefix 12 cj.ID.data⟩ ports2 =
        recordsOf cfg cj ⟨bytePrefix 12 cj.ID.data⟩ ports2 :=
      recordsOf_congr cfg { cj with Ports := ports2 } cj _ rfl rfl ports2
    have k2a : w2.submitted =
        w1.submitted ++ recordsOf cfg cj ⟨bytePrefix 12 cj.ID.data⟩ ports2 := by
      rw [← hrec]; exact k2
    have k3a : w2.registry = (recordsOf cfg cj ⟨bytePrefix 12 cj.ID.data⟩ ports2).foldl
        (fun s r => (mapAgent.ServiceRegister s r).1) w1.registry := by
      rw [← hrec]; exact k3
    refine ⟨w1, w2, _, _, h1, k1, h2, k2a, recordsOf_perm cfg cj _ _ _ hperm, ?_⟩
    intro hcase
    rw [k3a, h3]
    rcases hcase with hsame | hnd
    · rw [hsame]
      exact upsert_same_twice _ _
    · exact upsert_twice _ _ (recordsOf_perm cfg cj _ _ _ hperm) hnd _

/-- C8: whatever the registry answers to each ServiceRegister call, the registrations that
processContainer hands over, and those the bootstrap scan hands over for a list of
containers, are the same sequence as with a registry that accepts every call: a failure
causes no second attempt and drops no later endpoint or container. -/
theorem C8_registry_failures_do_not_change_submissions {σ : Type}
    (d : String → Option ContainerJSON) (c : Agent σ) (containerID action : String)
    (cfg : Config) (ids : List String) (w : World σ) :
    (processContainer d c containerID action cfg w).map (fun x => x.submitted) =
      (processContainer d okAgent containerID action cfg ⟨(), w.submitted, []⟩).map
        (fun x => x.submitted) ∧
    (bootstrap d c cfg ids w).map (fun x => x.submitted) =
      (bootstrap d okAgent cfg ids ⟨(), w.submitted, []⟩).map (fun x => x.submitted) :=
  ⟨processContainer_agent_irrelevant d c okAgent containerID action cfg w _ rfl,
   bootstrap_agent_irrelevant d c okAgent cfg ids w _ rfl⟩

/-- C9: with no environment entry of key SERVICE_NAME, the derived service name is the
lower-casing of the raw name after one leading "/" and then one leading "sentiric-" have been
removed where present; the raw name "/sentiric-" ++ x gives the lower-casing of x, and
/sentiric-auth gives auth. Lower-casing is rune by rune by unicode.ToLower: on ASCII the
letters A to Z move to a to z and nothing else changes, no letter A to Z remains in the name,
/sentiric-AuthSvc gives authsvc and /sentiric-ÇAĞRI-İŞ gives çağri-iş. -/
theorem C9_name_from_container_name (cj : ContainerJSON)
    (hno : ∀ e ∈ cj.Env, entryKey e ≠ some "SERVICE_NAME") :
    serviceName cj = toLower (TrimPrefix (TrimPrefix cj.Name "/") "sentiric-") ∧
    (serviceName cj).data =
      (TrimPrefix (TrimPrefix cj.Name "/") "sentiric-").data.map toLowerRune ∧
    (∀ c : Char, c.toNat < 128 →
      toLowerRune c = if 65 ≤ c.toNat ∧ c.toNat ≤ 90 then Char.ofNat (c.toNat + 32) else c) ∧
    (∀ c ∈ (serviceName cj).data, ¬ (65 ≤ c.toNat ∧ c.toNat ≤ 90)) ∧
    (∀ x : String, cj.Name = "/sentiric-" ++ x →
      serviceName cj = toLower x ∧ (serviceName cj).data = x.data.map toLowerRune) ∧
    (cj.Name = "/sentiric-auth" → serviceName cj = "auth") ∧
    (cj.Name = "/sentiric-AuthSvc" → serviceName cj = "authsvc") ∧
    (cj.Name = "/sentiric-ÇAĞRI-İŞ" → serviceName cj = "çağri-iş") := by
  have h1 : serviceName cj = toLower (TrimPrefix (TrimPrefix cj.Name "/") "sentiric-") := by
    unfold serviceName
    simp only []
    rw [parseEnv_absent cj.Env "SERVICE_NAME" hno, if_pos rfl]
    rfl
  have h3 : ∀ x : String, cj.Name = "/sentiric-" ++ x → serviceName cj = toLower x := by
    intro x hx
    rw [h1, hx]
    have h2 : "/sentiric-" ++ x = "/" ++ ("sentiric-" ++ x) := by
      apply String.ext
      simp [String.data_append]
    rw [h2, TrimPrefix_append, TrimPrefix_append]
  refine ⟨h1, ?_, toLowerRune_ascii, ?_, ?_, ?_, ?_, ?_⟩
  · rw [h1]; rfl
  · rw [h1]; exact toLower_no_capital _
  · intro x hx
    exact ⟨h3 x hx, by rw [h3 x hx]; rfl⟩
  · intro hx
    rw [h3 "auth" hx]
    decide
  · intro hx
    rw [h3 "AuthSvc" hx]
    decide
  · intro hx
    rw [h3 "ÇAĞRI-İŞ" hx]
    decide

/-- C9 at containers named /sentiric-AuthSvc and /sentiric-auth that carry no override. -/
theorem C9_witness :
    serviceName { authSnapshot with
      Name := "/sentiric-AuthSvc", Env := ["PATH=/usr/bin", "malformed"] } = "authsvc" ∧
    serviceName { authSnapshot with Env := ["PATH=/usr/bin", "malformed"] } = "auth" :=
  ⟨(C9_name_from_container_name
      { authSnapshot with Name := "/sentiric-AuthSvc", Env := ["PATH=/usr/bin", "malformed"] }
      (by decide)).2.2.2.2.2.2.1 (by decide),
   (C9_name_from_container_name { authSnapshot with Env := ["PATH=/usr/bin", "malformed"] }
      (by decide)).2.2.2.2.2.1 (by decide)⟩

/-- C10 fails on the code: deregisterContainer has an empty body, so handling a die event
leaves the world as it was, and the record registered for the container, whose container_id
is the 12-character prefix of the identifier, is still in the registry afterwards. -/
theorem C10_die_event_removes_nothing :
    (∀ (σ : Type) (d : String → Option ContainerJSON) (c : Agent σ) (cfg : Config)
        (id : String) (w : World σ), handleEvent d c cfg "die" id w = some w) ∧
    ((processContainer (inspectOnly authSnapshot) mapAgent sampleID "register" node1
      (World.start emptyRegistry)).bind
        (handleEvent (inspectOnly authSnapshot) mapAgent node1 "die" sampleID)).map
        (fun w => (w.registry "node1-authsvc-33001").map (fun r => r.Meta)) =
      some (some [("container_id", "4f1c2a9be07d"), ("image", "sentiric/auth:latest")]) := by
  refine ⟨?_, ?_⟩
  · intro σ d c cfg id w
    rfl
  · decide

end Registrator
